import Mathlib

/-!
Endpoints to EndpointSlice conversion (package `k8sdefaultendpoint`)

A shallow embedding of `pkg/controllers/k8sdefaultendpoint/provider.go`.

* Go structs become Lean structures whose zero value is the structure's default.
* A Go pointer field (`*string`, `*int32`, `*bool`, `*ObjectReference`) becomes an
  `Option`; `nil` is `none`.
* A Go slice becomes a `List` (a `nil` slice and an empty slice are both `[]`).
* A Go `map[string]string` becomes a list of key/value pairs.
* An index expression `xs[i]` is the checked lookup `xs[i]?`; an out-of-range index
  is the run-time failure `none`, so functions that index return an `Option`.
* `utilnet.IsIPv6String` belongs to the library `k8s.io/utils/net`; it is a parameter
  `isIPv6String : String → Bool` of every definition that calls it.
* `allAddressesIPv6` is called by `endpointSliceFromEndpoints` but is declared in another
  file of the package; the converter takes it as the parameter `allAddressesIPv6`, and
  `K8sDefaultEndpoint.allAddressesIPv6` below models it from the specification.
* `controllerutil.CreateOrPatch` belongs to the library `controller-runtime`; of
  `createOrPatch` the embedding has the target it builds and the closure it passes on,
  the closure as a function from the target before to the target after.
-/

namespace K8sDefaultEndpoint

/-! ## Data model: the fields of the Kubernetes API types the package reads or writes -/

namespace metav1

/-- Fields of `metav1.ObjectMeta` used by the package. -/
structure ObjectMeta where
  Name : String := ""
  Namespace : String := ""
  Labels : List (String × String) := []
  deriving DecidableEq, Repr

end metav1

namespace corev1

/-- Go type `corev1.ObjectReference`, an opaque back-reference to another object. -/
structure ObjectReference where
  Kind : String := ""
  Namespace : String := ""
  Name : String := ""
  deriving DecidableEq, Repr

/-- Go type `corev1.EndpointAddress`. -/
structure EndpointAddress where
  IP : String := ""
  Hostname : String := ""
  NodeName : Option String := none
  TargetRef : Option ObjectReference := none
  deriving DecidableEq, Repr

/-- Go type `corev1.EndpointPort`; `Port` is an `int32`, `Protocol` a string type. -/
structure EndpointPort where
  Name : String := ""
  Port : Int := 0
  Protocol : String := ""
  AppProtocol : Option String := none
  deriving DecidableEq, Repr

/-- Go type `corev1.EndpointSubset`. -/
structure EndpointSubset where
  Addresses : List EndpointAddress := []
  NotReadyAddresses : List EndpointAddress := []
  Ports : List EndpointPort := []
  deriving DecidableEq, Repr

/-- Go type `corev1.Endpoints`. -/
structure Endpoints where
  ObjectMeta : metav1.ObjectMeta := {}
  Subsets : List EndpointSubset := []
  deriving DecidableEq, Repr

end corev1

namespace discovery

/-- Go type `discovery.AddressType`, a string type. -/
abbrev AddressType := String

/-- Go constant `discovery.AddressTypeIPv4`. -/
def AddressTypeIPv4 : AddressType := "IPv4"

/-- Go constant `discovery.AddressTypeIPv6`. -/
def AddressTypeIPv6 : AddressType := "IPv6"

/-- Go constant `discovery.LabelServiceName`. -/
def LabelServiceName : String := "kubernetes.io/service-name"

/-- Go type `discovery.EndpointConditions`. -/
structure EndpointConditions where
  Ready : Option Bool := none
  Serving : Option Bool := none
  Terminating : Option Bool := none
  deriving DecidableEq, Repr

/-- Go type `discovery.Endpoint`. -/
structure Endpoint where
  Addresses : List String := []
  Conditions : EndpointConditions := {}
  Hostname : Option String := none
  TargetRef : Option corev1.ObjectReference := none
  NodeName : Option String := none
  Zone : Option String := none
  deriving DecidableEq, Repr

/-- Go type `discovery.EndpointPort`: every field is a pointer. -/
structure EndpointPort where
  Name : Option String := none
  Protocol : Option String := none
  Port : Option Int := none
  AppProtocol : Option String := none
  deriving DecidableEq, Repr

/-- Go type `discovery.EndpointSlice`. -/
structure EndpointSlice where
  ObjectMeta : metav1.ObjectMeta := {}
  AddressType : AddressType := ""
  Endpoints : List Endpoint := []
  Ports : List EndpointPort := []
  deriving DecidableEq, Repr

end discovery

/-! ## The converter -/

/-- Go function `endpointFromAddress` (provider.go, lines 87-99). -/
def endpointFromAddress (address : corev1.EndpointAddress) (ready : Bool) : discovery.Endpoint :=
  let ep : discovery.Endpoint :=
    { Addresses := [address.IP]
      Conditions := { Ready := some ready }
      TargetRef := address.TargetRef }
  if address.NodeName ≠ none then
    { ep with NodeName := address.NodeName }
  else
    ep

/-- Go function `getEndpointsFromAddresses` (provider.go, lines 72-83): the `range` loop
appends one record for every address whose classification equals `isIPv6AddressType`. -/
def getEndpointsFromAddresses (isIPv6String : String → Bool)
    (addresses : List corev1.EndpointAddress) (addressType : discovery.AddressType)
    (ready : Bool) : List discovery.Endpoint :=
  let isIPv6AddressType : Bool := decide (addressType = discovery.AddressTypeIPv6)
  addresses.foldl
    (fun endpoints address =>
      if isIPv6String address.IP = isIPv6AddressType then
        endpoints ++ [endpointFromAddress address ready]
      else
        endpoints)
    []

/-- The port loop of `endpointSliceFromEndpoints` (provider.go, lines 50-56): for each index
`i` of the iteration, read `ports[i]` and append a port whose three pointers address the
fields of that element. An index outside `ports` is the run-time failure `none`. -/
def appendPorts (ports : List corev1.EndpointPort) :
    List Nat → List discovery.EndpointPort → Option (List discovery.EndpointPort)
  | [], acc => some acc
  | i :: rest, acc =>
    match ports[i]? with
    | none => none
    | some p =>
      appendPorts ports rest
        (acc ++ [{ Port := some p.Port, Name := some p.Name, Protocol := some p.Protocol }])

/-- Go function `endpointSliceFromEndpoints` (provider.go, lines 39-67). The result is
`none` when an index expression is out of range. -/
def endpointSliceFromEndpoints (isIPv6String : String → Bool)
    (allAddressesIPv6 : List corev1.EndpointAddress → Bool)
    (endpoints : corev1.Endpoints) : Option discovery.EndpointSlice := do
  let endpointSlice : discovery.EndpointSlice := {}
  let endpointSlice : discovery.EndpointSlice :=
    { endpointSlice with
      ObjectMeta := { endpointSlice.ObjectMeta with Name := endpoints.ObjectMeta.Name } }
  let endpointSlice : discovery.EndpointSlice :=
    { endpointSlice with
      ObjectMeta := { endpointSlice.ObjectMeta with
        Labels := [(discovery.LabelServiceName, endpoints.ObjectMeta.Name)] } }
  let endpointSlice : discovery.EndpointSlice :=
    { endpointSlice with AddressType := discovery.AddressTypeIPv4 }
  if endpoints.Subsets.length > 0 then
    let subset ← endpoints.Subsets[0]?
    let ports ← appendPorts subset.Ports (List.range subset.Ports.length) endpointSlice.Ports
    let endpointSlice : discovery.EndpointSlice := { endpointSlice with Ports := ports }
    let endpointSlice : discovery.EndpointSlice :=
      if allAddressesIPv6 (subset.Addresses ++ subset.NotReadyAddresses) then
        { endpointSlice with AddressType := discovery.AddressTypeIPv6 }
      else
        endpointSlice
    let endpointSlice : discovery.EndpointSlice :=
      { endpointSlice with
        Endpoints := endpointSlice.Endpoints ++
          getEndpointsFromAddresses isIPv6String subset.Addresses endpointSlice.AddressType true }
    let endpointSlice : discovery.EndpointSlice :=
      { endpointSlice with
        Endpoints := endpointSlice.Endpoints ++
          getEndpointsFromAddresses isIPv6String subset.NotReadyAddresses
            endpointSlice.AddressType false }
    return endpointSlice
  else
    return endpointSlice

/-! ## The upsert of `createOrPatch` -/

namespace createOrPatch

/-- The target object `vSlices` that `createOrPatch` builds (provider.go, lines 19-24):
only its namespace and name are set. -/
def vSlices : discovery.EndpointSlice :=
  { ObjectMeta := { Namespace := "default", Name := "kubernetes" } }

/-- The closure that `createOrPatch` hands to `controllerutil.CreateOrPatch` (provider.go,
lines 25-32), as a function of the target it mutates: it converts `vEndpoints` and assigns
the labels, the address type, the endpoints and the ports of the result to the target. The
closure's own error result is always `nil`; `none` is a run-time failure of the converter. -/
def mutateFn (isIPv6String : String → Bool)
    (allAddressesIPv6 : List corev1.EndpointAddress → Bool)
    (vEndpoints : corev1.Endpoints) (vSlices : discovery.EndpointSlice) :
    Option discovery.EndpointSlice := do
  let newSlice ← endpointSliceFromEndpoints isIPv6String allAddressesIPv6 vEndpoints
  let vSlices : discovery.EndpointSlice :=
    { vSlices with ObjectMeta := { vSlices.ObjectMeta with Labels := newSlice.ObjectMeta.Labels } }
  let vSlices : discovery.EndpointSlice := { vSlices with AddressType := newSlice.AddressType }
  let vSlices : discovery.EndpointSlice := { vSlices with Endpoints := newSlice.Endpoints }
  let vSlices : discovery.EndpointSlice := { vSlices with Ports := newSlice.Ports }
  return vSlices

end createOrPatch

/-- Modelled from the spec: the helper `allAddressesIPv6`, which the converter calls but
whose declaration is in another file of the package. The specification (section 4.1, step
3b) gives its result: true when every address of the list is classified IPv6, and false
"whenever the union is empty or mixed". -/
def allAddressesIPv6 (isIPv6String : String → Bool)
    (addresses : List corev1.EndpointAddress) : Bool :=
  if addresses.length = 0 then
    false
  else
    addresses.all (fun address => isIPv6String address.IP)

/-- The reduction of the specification's design note (section 9), in its words:
`all(isIPv6, union(ready, notReady))`, the standard all-of predicate over the concatenated
sequence. It is compared with the decision the converter takes. -/
def allOfReduction (isIPv6String : String → Bool)
    (readyAddresses notReadyAddresses : List corev1.EndpointAddress) : Bool :=
  (readyAddresses ++ notReadyAddresses).all (fun address => isIPv6String address.IP)

/-! ## Sample inputs for evaluating the definitions -/

/-- A sample classifier for concrete evaluations: a literal counts as IPv6 when it
contains a colon. The theorems hold for every classifier. -/
def colonClassifier (ip : String) : Bool := ip.toList.contains ':'

/-- One port, `443/https/TCP`. -/
def httpsPort : corev1.EndpointPort := { Name := "https", Port := 443, Protocol := "TCP" }

/-- A subset with ready addresses `10.0.0.1, 10.0.0.2` and not-ready `10.0.0.3, 10.0.0.4`. -/
def orderedSubset : corev1.EndpointSubset :=
  { Addresses := [{ IP := "10.0.0.1" }, { IP := "10.0.0.2" }]
    NotReadyAddresses := [{ IP := "10.0.0.3" }, { IP := "10.0.0.4" }]
    Ports := [httpsPort] }

/-- An input whose only subset is `orderedSubset`. -/
def orderedInput : corev1.Endpoints :=
  { ObjectMeta := { Name := "kubernetes" }, Subsets := [orderedSubset] }

/-- An input without subsets. -/
def noSubsetsInput : corev1.Endpoints := { ObjectMeta := { Name := "kubernetes" } }

/-- An input whose only subset has one port and no address at all. -/
def noAddressesInput : corev1.Endpoints :=
  { ObjectMeta := { Name := "kubernetes" }, Subsets := [{ Ports := [httpsPort] }] }

/-- A subset whose only address is the ready address `fe80::1`. -/
def ipv6Subset : corev1.EndpointSubset :=
  { Addresses := [{ IP := "fe80::1" }], Ports := [httpsPort] }

/-- An input whose only subset is `ipv6Subset`. -/
def ipv6Input : corev1.Endpoints :=
  { ObjectMeta := { Name := "kubernetes" }, Subsets := [ipv6Subset] }

/-- A subset with ready addresses `10.0.0.1, fe80::1`. -/
def mixedSubset : corev1.EndpointSubset :=
  { Addresses := [{ IP := "10.0.0.1" }, { IP := "fe80::1" }], Ports := [httpsPort] }

/-- An input whose only subset is `mixedSubset`. -/
def mixedInput : corev1.Endpoints :=
  { ObjectMeta := { Name := "kubernetes" }, Subsets := [mixedSubset] }

/-- The input `mixedInput` followed by two further subsets, in another namespace. -/
def mixedInputMoreSubsets : corev1.Endpoints :=
  { ObjectMeta := { Name := "kubernetes", Namespace := "other" }
    Subsets := [mixedSubset, ipv6Subset, orderedSubset] }

/-- A subset with two ports, a ready IPv4 address with a node name and a not-ready one. -/
def twoPortSubset : corev1.EndpointSubset :=
  { Addresses := [{ IP := "10.0.0.1", NodeName := some "node-a" }]
    NotReadyAddresses := [{ IP := "10.0.0.2" }]
    Ports := [httpsPort, { Name := "dns", Port := 53, Protocol := "UDP" }] }

/-- An input whose only subset is `twoPortSubset`. -/
def twoPortInput : corev1.Endpoints :=
  { ObjectMeta := { Name := "kubernetes" }, Subsets := [twoPortSubset] }

/-- An address with a node name and a target reference. -/
def referencedAddress : corev1.EndpointAddress :=
  { IP := "10.0.0.1", NodeName := some "node-a"
    TargetRef := some { Kind := "Pod", Namespace := "default", Name := "apiserver-0" } }

/-- An address whose literal is no IP address at all. -/
def malformedAddress : corev1.EndpointAddress := { IP := "not-an-ip" }

/-- A subset with the ready address `fe80::1` and the malformed not-ready address. -/
def malformedSubset : corev1.EndpointSubset :=
  { Addresses := [{ IP := "fe80::1" }], NotReadyAddresses := [malformedAddress]
    Ports := [httpsPort] }

/-- An input whose only subset is `malformedSubset`. -/
def malformedInput : corev1.Endpoints :=
  { ObjectMeta := { Name := "kubernetes" }, Subsets := [malformedSubset] }

/-- A subset whose only port has an empty name and an empty protocol. -/
def unnamedPortSubset : corev1.EndpointSubset :=
  { Addresses := [{ IP := "10.0.0.1" }], Ports := [{ Name := "", Port := 8080, Protocol := "" }] }

/-- An input whose only subset is `unnamedPortSubset`. -/
def unnamedPortInput : corev1.Endpoints :=
  { ObjectMeta := { Name := "kubernetes" }, Subsets := [unnamedPortSubset] }

/-- The input `mixedInput` under another name. -/
def renamedInput : corev1.Endpoints :=
  { ObjectMeta := { Name := "other-service" }, Subsets := [mixedSubset] }

/-- A stored target whose four mutable fields hold values of an earlier conversion. -/
def staleTarget : discovery.EndpointSlice :=
  { ObjectMeta := { Namespace := "default", Name := "kubernetes", Labels := [("stale", "yes")] }
    AddressType := "IPv6"
    Endpoints := [{ Addresses := ["fe80::9"], Conditions := { Ready := some false } }]
    Ports := [{ Port := some 80 }] }

end K8sDefaultEndpoint

namespace K8sDefaultEndpoint

/-! ## Loop lemmas -/

theorem foldl_append_filter_map {α β : Type} (p : α → Bool) (g : α → β) (l : List α)
    (acc : List β) :
    l.foldl (fun out a => if p a = true then out ++ [g a] else out) acc
      = acc ++ (l.filter p).map g := by
  induction l generalizing acc with
  | nil => simp
  | cons a l ih =>
    simp only [List.foldl_cons, List.filter_cons]
    cases hp : p a <;> simp [ih]

/-- The loop of `getEndpointsFromAddresses` is a filter followed by a map. -/
theorem getEndpointsFromAddresses_eq (isIPv6String : String → Bool)
    (addresses : List corev1.EndpointAddress) (addressType : discovery.AddressType)
    (ready : Bool) :
    getEndpointsFromAddresses isIPv6String addresses addressType ready
      = (addresses.filter (fun address =>
          decide (isIPv6String address.IP = true ↔ addressType = discovery.AddressTypeIPv6))).map
          (fun address => endpointFromAddress address ready) := by
  unfold getEndpointsFromAddresses
  have h := foldl_append_filter_map
    (fun address : corev1.EndpointAddress =>
      decide (isIPv6String address.IP = decide (addressType = discovery.AddressTypeIPv6)))
    (fun address => endpointFromAddress address ready) addresses []
  have hp : (fun address : corev1.EndpointAddress =>
      decide (isIPv6String address.IP = decide (addressType = discovery.AddressTypeIPv6)))
      = (fun address =>
          decide (isIPv6String address.IP = true ↔ addressType = discovery.AddressTypeIPv6)) := by
    funext address
    cases isIPv6String address.IP <;> simp
  rw [← hp]
  simpa using h

theorem appendPorts_map_succ (p : corev1.EndpointPort) (ps : List corev1.EndpointPort)
    (is : List Nat) (acc : List discovery.EndpointPort) :
    appendPorts (p :: ps) (is.map Nat.succ) acc = appendPorts ps is acc := by
  induction is generalizing acc with
  | nil => rfl
  | cons i is ih =>
    simp only [List.map_cons, appendPorts, Nat.succ_eq_add_one, List.getElem?_cons_succ]
    cases ps[i]? with
    | none => rfl
    | some q => simpa using ih _

/-- The port loop never fails on the indices of its own list and copies every port. -/
theorem appendPorts_range (ports : List corev1.EndpointPort)
    (acc : List discovery.EndpointPort) :
    appendPorts ports (List.range ports.length) acc
      = some (acc ++ ports.map (fun p =>
          ({ Port := some p.Port, Name := some p.Name, Protocol := some p.Protocol } :
            discovery.EndpointPort))) := by
  induction ports generalizing acc with
  | nil => simp [appendPorts]
  | cons p ps ih =>
    rw [List.length_cons, List.range_succ_eq_map]
    simp only [appendPorts, List.getElem?_cons_zero]
    rw [appendPorts_map_succ, ih]
    simp

theorem endpointFromAddress_Addresses (address : corev1.EndpointAddress) (ready : Bool) :
    (endpointFromAddress address ready).Addresses = [address.IP] := by
  unfold endpointFromAddress
  split <;> rfl

theorem endpointFromAddress_Ready (address : corev1.EndpointAddress) (ready : Bool) :
    (endpointFromAddress address ready).Conditions.Ready = some ready := by
  unfold endpointFromAddress
  split <;> rfl

theorem addressType_constants_ne : discovery.AddressTypeIPv4 ≠ discovery.AddressTypeIPv6 := by
  decide

/-- The result of the converter on an input without subsets. -/
theorem endpointSliceFromEndpoints_nil (isIPv6String : String → Bool)
    (allV6 : List corev1.EndpointAddress → Bool) (endpoints : corev1.Endpoints)
    (h : endpoints.Subsets = []) :
    endpointSliceFromEndpoints isIPv6String allV6 endpoints
      = some { ObjectMeta :=
                { Name := endpoints.ObjectMeta.Name
                  Labels := [(discovery.LabelServiceName, endpoints.ObjectMeta.Name)] }
               AddressType := discovery.AddressTypeIPv4 } := by
  simp [endpointSliceFromEndpoints, h]

/-- The result of the converter on an input with a first subset. -/
theorem endpointSliceFromEndpoints_cons (isIPv6String : String → Bool)
    (allV6 : List corev1.EndpointAddress → Bool) (endpoints : corev1.Endpoints)
    (subset : corev1.EndpointSubset) (rest : List corev1.EndpointSubset)
    (h : endpoints.Subsets = subset :: rest) :
    endpointSliceFromEndpoints isIPv6String allV6 endpoints
      = some { ObjectMeta :=
                { Name := endpoints.ObjectMeta.Name
                  Labels := [(discovery.LabelServiceName, endpoints.ObjectMeta.Name)] }
               AddressType :=
                if allV6 (subset.Addresses ++ subset.NotReadyAddresses) then
                  discovery.AddressTypeIPv6 else discovery.AddressTypeIPv4
               Ports := subset.Ports.map (fun p =>
                ({ Port := some p.Port, Name := some p.Name, Protocol := some p.Protocol } :
                  discovery.EndpointPort))
               Endpoints :=
                getEndpointsFromAddresses isIPv6String subset.Addresses
                  (if allV6 (subset.Addresses ++ subset.NotReadyAddresses) then
                    discovery.AddressTypeIPv6 else discovery.AddressTypeIPv4) true ++
                getEndpointsFromAddresses isIPv6String subset.NotReadyAddresses
                  (if allV6 (subset.Addresses ++ subset.NotReadyAddresses) then
                    discovery.AddressTypeIPv6 else discovery.AddressTypeIPv4) false } := by
  simp only [endpointSliceFromEndpoints, h, List.length_cons, gt_iff_lt, Nat.zero_lt_succ,
    if_true, List.getElem?_cons_zero, appendPorts_range, Option.bind_eq_bind, Option.some_bind,
    List.nil_append]
  cases allV6 (subset.Addresses ++ subset.NotReadyAddresses) <;> simp

/-- The model of `allAddressesIPv6` is true exactly on a non-empty list of IPv6 addresses. -/
theorem allAddressesIPv6_eq_true_iff (isIPv6String : String → Bool)
    (addresses : List corev1.EndpointAddress) :
    allAddressesIPv6 isIPv6String addresses = true ↔
      addresses ≠ [] ∧ ∀ a ∈ addresses, isIPv6String a.IP = true := by
  unfold allAddressesIPv6
  cases addresses with
  | nil => simp
  | cons a l => simp

/-! ## Claims about the converter -/

/-- C1: for an input with a first subset, the converter returns a slice whose endpoint
records carry, in this order, the IP literals of the ready addresses whose classification
matches the returned address type, then those of the not-ready addresses whose
classification matches it; each record holds exactly one literal, and original order is
kept inside both groups. This holds whatever `allAddressesIPv6` computes. -/
theorem endpoints_ip_order (isIPv6String : String → Bool)
    (allV6 : List corev1.EndpointAddress → Bool) (endpoints : corev1.Endpoints)
    (subset : corev1.EndpointSubset) (rest : List corev1.EndpointSubset)
    (h : endpoints.Subsets = subset :: rest) :
    ∃ slice, endpointSliceFromEndpoints isIPv6String allV6 endpoints = some slice ∧
      slice.Endpoints.map (fun ep => ep.Addresses) =
        ((subset.Addresses.filter (fun a =>
            decide (isIPv6String a.IP = true ↔ slice.AddressType = discovery.AddressTypeIPv6)))
          ++ (subset.NotReadyAddresses.filter (fun a =>
            decide (isIPv6String a.IP = true ↔ slice.AddressType = discovery.AddressTypeIPv6)))).map
          (fun a => [a.IP]) ∧
      (slice.Endpoints.map (fun ep => ep.Addresses)).flatten =
        (subset.Addresses.filter (fun a =>
            decide (isIPv6String a.IP = true ↔ slice.AddressType = discovery.AddressTypeIPv6))).map
          (fun a => a.IP)
        ++ (subset.NotReadyAddresses.filter (fun a =>
            decide (isIPv6String a.IP = true ↔ slice.AddressType = discovery.AddressTypeIPv6))).map
          (fun a => a.IP) := by
  refine ⟨_, endpointSliceFromEndpoints_cons isIPv6String allV6 endpoints subset rest h, ?_⟩
  have hrec : ∀ (l : List corev1.EndpointAddress) (ready : Bool),
      (l.map (fun a => endpointFromAddress a ready)).map (fun ep => ep.Addresses)
        = l.map (fun a => [a.IP]) := by
    intro l ready
    simp [endpointFromAddress_Addresses]
  have hflat : ∀ (l : List corev1.EndpointAddress),
      (l.map (fun a => [a.IP])).flatten = l.map (fun a => a.IP) := by
    intro l
    induction l with
    | nil => rfl
    | cons a l ih => simp [ih]
  have hfirst : ∀ t : discovery.AddressType,
      (getEndpointsFromAddresses isIPv6String subset.Addresses t true ++
        getEndpointsFromAddresses isIPv6String subset.NotReadyAddresses t false).map
          (fun ep => ep.Addresses)
        = ((subset.Addresses.filter (fun a =>
              decide (isIPv6String a.IP = true ↔ t = discovery.AddressTypeIPv6)))
            ++ (subset.NotReadyAddresses.filter (fun a =>
              decide (isIPv6String a.IP = true ↔ t = discovery.AddressTypeIPv6)))).map
            (fun a => [a.IP]) := by
    intro t
    rw [getEndpointsFromAddresses_eq, getEndpointsFromAddresses_eq, List.map_append, hrec, hrec,
      List.map_append]
  refine ⟨hfirst _, ?_⟩
  rw [hfirst, hflat, List.map_append]

/-- C1 at a concrete input: ready `[10.0.0.1, 10.0.0.2]` and not-ready
`[10.0.0.3, 10.0.0.4]` give the literals in the order `a, b, c, d`. -/
theorem endpoints_ip_order_witness :
    orderedInput.Subsets = orderedSubset :: [] ∧
    (∃ slice, endpointSliceFromEndpoints colonClassifier (allAddressesIPv6 colonClassifier)
        orderedInput = some slice ∧
      slice.Endpoints.map (fun ep => ep.Addresses) =
        ((orderedSubset.Addresses.filter (fun a =>
            decide (colonClassifier a.IP = true ↔ slice.AddressType = discovery.AddressTypeIPv6)))
          ++ (orderedSubset.NotReadyAddresses.filter (fun a =>
            decide (colonClassifier a.IP = true ↔
              slice.AddressType = discovery.AddressTypeIPv6)))).map
          (fun a => [a.IP]) ∧
      (slice.Endpoints.map (fun ep => ep.Addresses)).flatten =
        (orderedSubset.Addresses.filter (fun a =>
            decide (colonClassifier a.IP = true ↔ slice.AddressType = discovery.AddressTypeIPv6))).map
          (fun a => a.IP)
        ++ (orderedSubset.NotReadyAddresses.filter (fun a =>
            decide (colonClassifier a.IP = true ↔
              slice.AddressType = discovery.AddressTypeIPv6))).map
          (fun a => a.IP)) ∧
    (endpointSliceFromEndpoints colonClassifier (allAddressesIPv6 colonClassifier)
        orderedInput).map (fun slice => (slice.Endpoints.map (fun ep => ep.Addresses)).flatten)
      = some ["10.0.0.1", "10.0.0.2", "10.0.0.3", "10.0.0.4"] :=
  ⟨rfl,
   endpoints_ip_order colonClassifier (allAddressesIPv6 colonClassifier) orderedInput
     orderedSubset [] rfl,
   by decide⟩

/-- C2: with `allAddressesIPv6` as the specification describes it, the converter returns a
slice whose address type is IPv6 exactly when the input has a first subset whose ready and
not-ready addresses, concatenated, are non-empty and all classified IPv6; in every other
case the address type is IPv4. -/
theorem addressType_ipv6_iff (isIPv6String : String → Bool) (endpoints : corev1.Endpoints) :
    ∃ slice, endpointSliceFromEndpoints isIPv6String (allAddressesIPv6 isIPv6String) endpoints
        = some slice ∧
      (slice.AddressType = discovery.AddressTypeIPv6 ↔
        ∃ subset rest, endpoints.Subsets = subset :: rest ∧
          subset.Addresses ++ subset.NotReadyAddresses ≠ [] ∧
          ∀ a ∈ subset.Addresses ++ subset.NotReadyAddresses, isIPv6String a.IP = true) ∧
      (slice.AddressType ≠ discovery.AddressTypeIPv6 →
        slice.AddressType = discovery.AddressTypeIPv4) := by
  cases hs : endpoints.Subsets with
  | nil =>
    refine ⟨_, endpointSliceFromEndpoints_nil isIPv6String _ endpoints hs, ?_, fun _ => rfl⟩
    constructor
    · intro h
      exact absurd h addressType_constants_ne
    · rintro ⟨subset, rest, h, _⟩
      cases h
  | cons subset rest =>
    refine ⟨_, endpointSliceFromEndpoints_cons isIPv6String _ endpoints subset rest hs, ?_, ?_⟩
    · constructor
      · intro h
        refine ⟨subset, rest, rfl, ?_⟩
        apply (allAddressesIPv6_eq_true_iff isIPv6String _).mp
        by_contra hf
        simp only [hf] at h
        exact addressType_constants_ne h
      · rintro ⟨subset', rest', h, hne, hall⟩
        cases h
        have := (allAddressesIPv6_eq_true_iff isIPv6String _).mpr ⟨hne, hall⟩
        simp [this]
    · intro h
      by_cases hv : allAddressesIPv6 isIPv6String (subset.Addresses ++ subset.NotReadyAddresses)
          = true
      · simp [hv] at h
      · simp [hv]

/-- C3 as stated fails: in the input without subsets, and in the input whose subset has no
address, every address is classified IPv6 (there is none), yet the returned address type is
IPv4, not IPv6. -/
theorem all_ipv6_counterexample :
    ((∀ subset ∈ noSubsetsInput.Subsets,
        ∀ a ∈ subset.Addresses ++ subset.NotReadyAddresses, colonClassifier a.IP = true) ∧
      (endpointSliceFromEndpoints colonClassifier (allAddressesIPv6 colonClassifier)
          noSubsetsInput).map (fun slice => slice.AddressType) = some "IPv4" ∧
      ¬ ∃ slice, endpointSliceFromEndpoints colonClassifier (allAddressesIPv6 colonClassifier)
          noSubsetsInput = some slice ∧ slice.AddressType = discovery.AddressTypeIPv6) ∧
    ((∀ subset ∈ noAddressesInput.Subsets,
        ∀ a ∈ subset.Addresses ++ subset.NotReadyAddresses, colonClassifier a.IP = true) ∧
      (endpointSliceFromEndpoints colonClassifier (allAddressesIPv6 colonClassifier)
          noAddressesInput).map (fun slice => slice.AddressType) = some "IPv4" ∧
      ¬ ∃ slice, endpointSliceFromEndpoints colonClassifier (allAddressesIPv6 colonClassifier)
          noAddressesInput = some slice ∧ slice.AddressType = discovery.AddressTypeIPv6) := by
  refine ⟨⟨by decide, by decide, ?_⟩, ⟨by decide, by decide, ?_⟩⟩
  · rintro ⟨slice, h, ht⟩
    have h4 : (endpointSliceFromEndpoints colonClassifier (allAddressesIPv6 colonClassifier)
        noSubsetsInput).map (fun slice => slice.AddressType) = some "IPv4" := by decide
    rw [h] at h4
    simp only [Option.map_some'] at h4
    rw [ht] at h4
    exact absurd h4 (by decide)
  · rintro ⟨slice, h, ht⟩
    have h4 : (endpointSliceFromEndpoints colonClassifier (allAddressesIPv6 colonClassifier)
        noAddressesInput).map (fun slice => slice.AddressType) = some "IPv4" := by decide
    rw [h] at h4
    simp only [Option.map_some'] at h4
    rw [ht] at h4
    exact absurd h4 (by decide)

/-- C3, amended: for an input whose first subset has at least one address and has only
addresses classified IPv6, the converter (with `allAddressesIPv6` as the specification
describes it) returns address type IPv6, and every address of every output record is the
literal of an address of that subset, classified IPv6. -/
theorem all_ipv6_gives_ipv6 (isIPv6String : String → Bool) (endpoints : corev1.Endpoints)
    (subset : corev1.EndpointSubset) (rest : List corev1.EndpointSubset)
    (h : endpoints.Subsets = subset :: rest)
    (hne : subset.Addresses ++ subset.NotReadyAddresses ≠ [])
    (hall : ∀ a ∈ subset.Addresses ++ subset.NotReadyAddresses, isIPv6String a.IP = true) :
    ∃ slice, endpointSliceFromEndpoints isIPv6String (allAddressesIPv6 isIPv6String) endpoints
        = some slice ∧
      slice.AddressType = discovery.AddressTypeIPv6 ∧
      ∀ ep ∈ slice.Endpoints, ∀ ip ∈ ep.Addresses,
        isIPv6String ip = true ∧
          ∃ a ∈ subset.Addresses ++ subset.NotReadyAddresses, a.IP = ip := by
  refine ⟨_, endpointSliceFromEndpoints_cons isIPv6String _ endpoints subset rest h, ?_, ?_⟩
  · simp [(allAddressesIPv6_eq_true_iff isIPv6String _).mpr ⟨hne, hall⟩]
  · intro ep hep ip hip
    simp only [getEndpointsFromAddresses_eq, List.mem_append, List.mem_map,
      List.mem_filter] at hep
    have key : ∃ a ∈ subset.Addresses ++ subset.NotReadyAddresses, a.IP = ip := by
      rcases hep with ⟨a, ⟨ha, _⟩, rfl⟩ | ⟨a, ⟨ha, _⟩, rfl⟩
      · rw [endpointFromAddress_Addresses] at hip
        exact ⟨a, List.mem_append_left _ ha, (List.mem_singleton.mp hip).symm⟩
      · rw [endpointFromAddress_Addresses] at hip
        exact ⟨a, List.mem_append_right _ ha, (List.mem_singleton.mp hip).symm⟩
    obtain ⟨a, ha, rfl⟩ := key
    exact ⟨hall a ha, a, ha, rfl⟩

/-- C3 amended, at the specification's scenario: ready `[fe80::1]`, no not-ready address,
one port; the result has address type IPv6 and the single ready record `fe80::1`. -/
theorem all_ipv6_gives_ipv6_witness :
    ipv6Input.Subsets = ipv6Subset :: [] ∧
    ipv6Subset.Addresses ++ ipv6Subset.NotReadyAddresses ≠ [] ∧
    (∀ a ∈ ipv6Subset.Addresses ++ ipv6Subset.NotReadyAddresses, colonClassifier a.IP = true) ∧
    (∃ slice, endpointSliceFromEndpoints colonClassifier (allAddressesIPv6 colonClassifier)
        ipv6Input = some slice ∧
      slice.AddressType = discovery.AddressTypeIPv6 ∧
      ∀ ep ∈ slice.Endpoints, ∀ ip ∈ ep.Addresses,
        colonClassifier ip = true ∧
          ∃ a ∈ ipv6Subset.Addresses ++ ipv6Subset.NotReadyAddresses, a.IP = ip) ∧
    (endpointSliceFromEndpoints colonClassifier (allAddressesIPv6 colonClassifier)
        ipv6Input).map (fun slice => (slice.AddressType, slice.Endpoints))
      = some ("IPv6", [{ Addresses := ["fe80::1"], Conditions := { Ready := some true } }]) :=
  ⟨rfl, by decide, by decide,
   all_ipv6_gives_ipv6 colonClassifier ipv6Input ipv6Subset [] rfl (by decide) (by decide),
   by decide⟩

/-- C4: for an input whose first subset holds, among its ready and not-ready addresses, at
least one address not classified IPv6, the converter (with `allAddressesIPv6` as the
specification describes it) returns address type IPv4, and no literal classified IPv6
occurs in any output record. -/
theorem non_ipv6_gives_ipv4 (isIPv6String : String → Bool) (endpoints : corev1.Endpoints)
    (subset : corev1.EndpointSubset) (rest : List corev1.EndpointSubset)
    (h : endpoints.Subsets = subset :: rest)
    (hmix : ∃ a ∈ subset.Addresses ++ subset.NotReadyAddresses, isIPv6String a.IP = false) :
    ∃ slice, endpointSliceFromEndpoints isIPv6String (allAddressesIPv6 isIPv6String) endpoints
        = some slice ∧
      slice.AddressType = discovery.AddressTypeIPv4 ∧
      ∀ ip, isIPv6String ip = true → ∀ ep ∈ slice.Endpoints, ip ∉ ep.Addresses := by
  have hf : allAddressesIPv6 isIPv6String (subset.Addresses ++ subset.NotReadyAddresses)
      = false := by
    cases hv : allAddressesIPv6 isIPv6String (subset.Addresses ++ subset.NotReadyAddresses) with
    | false => rfl
    | true =>
      obtain ⟨a, ha, hfalse⟩ := hmix
      have := ((allAddressesIPv6_eq_true_iff isIPv6String _).mp hv).2 a ha
      rw [hfalse] at this
      cases this
  refine ⟨_, endpointSliceFromEndpoints_cons isIPv6String _ endpoints subset rest h, ?_, ?_⟩
  · simp [hf]
  · intro ip hip ep hep hmem
    simp only [hf, getEndpointsFromAddresses_eq, List.mem_append, List.mem_map,
      List.mem_filter, decide_eq_true_eq] at hep
    have h46 : ¬ discovery.AddressTypeIPv4 = discovery.AddressTypeIPv6 :=
      addressType_constants_ne
    rcases hep with ⟨a, ⟨_, hm⟩, rfl⟩ | ⟨a, ⟨_, hm⟩, rfl⟩ <;>
    · rw [endpointFromAddress_Addresses] at hmem
      have hip' : a.IP = ip := (List.mem_singleton.mp hmem).symm
      rw [hip'] at hm
      exact h46 (hm.mp hip)

/-- C4 at the specification's scenario: ready `[10.0.0.1, fe80::1]` gives address type IPv4
and only the `10.0.0.1` record. -/
theorem non_ipv6_gives_ipv4_witness :
    mixedInput.Subsets = mixedSubset :: [] ∧
    (∃ a ∈ mixedSubset.Addresses ++ mixedSubset.NotReadyAddresses, colonClassifier a.IP = false) ∧
    (∃ slice, endpointSliceFromEndpoints colonClassifier (allAddressesIPv6 colonClassifier)
        mixedInput = some slice ∧
      slice.AddressType = discovery.AddressTypeIPv4 ∧
      ∀ ip, colonClassifier ip = true → ∀ ep ∈ slice.Endpoints, ip ∉ ep.Addresses) ∧
    (endpointSliceFromEndpoints colonClassifier (allAddressesIPv6 colonClassifier)
        mixedInput).map (fun slice => (slice.AddressType, slice.Endpoints))
      = some ("IPv4", [{ Addresses := ["10.0.0.1"], Conditions := { Ready := some true } }]) :=
  ⟨rfl, by decide,
   non_ipv6_gives_ipv4 colonClassifier mixedInput mixedSubset [] rfl (by decide),
   by decide⟩

/-- C5: for an input with zero subsets the converter returns address type IPv4, no port
and no endpoint record, whatever `allAddressesIPv6` computes. -/
theorem zero_subsets_result (isIPv6String : String → Bool)
    (allV6 : List corev1.EndpointAddress → Bool) (endpoints : corev1.Endpoints)
    (h : endpoints.Subsets = []) :
    ∃ slice, endpointSliceFromEndpoints isIPv6String allV6 endpoints = some slice ∧
      slice.AddressType = discovery.AddressTypeIPv4 ∧ slice.Ports = [] ∧
      slice.Endpoints = [] :=
  ⟨_, endpointSliceFromEndpoints_nil isIPv6String allV6 endpoints h, rfl, rfl, rfl⟩

/-- C5 at the input named `kubernetes` without subsets. -/
theorem zero_subsets_result_witness :
    noSubsetsInput.Subsets = [] ∧
    ∃ slice, endpointSliceFromEndpoints colonClassifier (allAddressesIPv6 colonClassifier)
        noSubsetsInput = some slice ∧
      slice.AddressType = discovery.AddressTypeIPv4 ∧ slice.Ports = [] ∧
      slice.Endpoints = [] :=
  ⟨rfl, zero_subsets_result colonClassifier (allAddressesIPv6 colonClassifier) noSubsetsInput rfl⟩

/-- In a list made of records that are all ready followed by records that are all not
ready, the record at index `i` is ready exactly when `i` lies in the first part. -/
theorem ready_at_index_of_append (front back : List discovery.Endpoint)
    (hfront : ∀ ep ∈ front, ep.Conditions.Ready = some true)
    (hback : ∀ ep ∈ back, ep.Conditions.Ready = some false)
    (i : Nat) (ep : discovery.Endpoint) (h : (front ++ back)[i]? = some ep) :
    ep.Conditions.Ready = some (decide (i < front.length)) := by
  by_cases hi : i < front.length
  · rw [List.getElem?_append_left hi] at h
    simpa [hi] using hfront ep (List.getElem?_mem h)
  · rw [List.getElem?_append_right (Nat.le_of_not_lt hi)] at h
    simpa [hi] using hback ep (List.getElem?_mem h)

/-- C6: for every input the converter returns a slice in which the records derived from the
first subset's ready addresses (those passing the family filter, in order) come first and
carry `ready = true`, and the records derived from its not-ready addresses follow and carry
`ready = false`: with `k` ready addresses passing the filter, the record at index `i` is
ready exactly when `i < k`. Without subsets there is no record. This holds whatever
`allAddressesIPv6` computes. -/
theorem ready_flags (isIPv6String : String → Bool)
    (allV6 : List corev1.EndpointAddress → Bool) (endpoints : corev1.Endpoints) :
    ∃ slice, endpointSliceFromEndpoints isIPv6String allV6 endpoints = some slice ∧
      match endpoints.Subsets with
      | [] => slice.Endpoints = []
      | subset :: _ =>
        slice.Endpoints =
          (subset.Addresses.filter (fun a =>
              decide (isIPv6String a.IP = true ↔
                slice.AddressType = discovery.AddressTypeIPv6))).map
            (fun a => endpointFromAddress a true)
          ++ (subset.NotReadyAddresses.filter (fun a =>
              decide (isIPv6String a.IP = true ↔
                slice.AddressType = discovery.AddressTypeIPv6))).map
            (fun a => endpointFromAddress a false) ∧
        (∀ a, (endpointFromAddress a true).Conditions.Ready = some true) ∧
        (∀ a, (endpointFromAddress a false).Conditions.Ready = some false) ∧
        ∀ i ep, slice.Endpoints[i]? = some ep →
          ep.Conditions.Ready = some (decide (i <
            (subset.Addresses.filter (fun a =>
              decide (isIPv6String a.IP = true ↔
                slice.AddressType = discovery.AddressTypeIPv6))).length)) := by
  cases hs : endpoints.Subsets with
  | nil => exact ⟨_, endpointSliceFromEndpoints_nil isIPv6String allV6 endpoints hs, rfl⟩
  | cons subset rest =>
    refine ⟨_, endpointSliceFromEndpoints_cons isIPv6String allV6 endpoints subset rest hs, ?_⟩
    simp only [getEndpointsFromAddresses_eq]
    refine ⟨trivial, fun a => endpointFromAddress_Ready a true,
      fun a => endpointFromAddress_Ready a false, ?_⟩
    intro i ep hi
    have := ready_at_index_of_append _ _ ?_ ?_ i ep hi
    · simpa using this
    · intro ep hep
      obtain ⟨a, _, rfl⟩ := List.mem_map.mp hep
      exact endpointFromAddress_Ready a true
    · intro ep hep
      obtain ⟨a, _, rfl⟩ := List.mem_map.mp hep
      exact endpointFromAddress_Ready a false

/-- C7: for every input the converter returns a slice in which every address of every
endpoint record is classified IPv6 exactly when the slice's address type is IPv6. This
holds whatever `allAddressesIPv6` computes. -/
theorem family_consistent (isIPv6String : String → Bool)
    (allV6 : List corev1.EndpointAddress → Bool) (endpoints : corev1.Endpoints) :
    ∃ slice, endpointSliceFromEndpoints isIPv6String allV6 endpoints = some slice ∧
      ∀ ep ∈ slice.Endpoints, ∀ ip ∈ ep.Addresses,
        (isIPv6String ip = true ↔ slice.AddressType = discovery.AddressTypeIPv6) := by
  cases hs : endpoints.Subsets with
  | nil =>
    refine ⟨_, endpointSliceFromEndpoints_nil isIPv6String allV6 endpoints hs, ?_⟩
    intro ep hep
    cases hep
  | cons subset rest =>
    refine ⟨_, endpointSliceFromEndpoints_cons isIPv6String allV6 endpoints subset rest hs, ?_⟩
    intro ep hep ip hip
    simp only [getEndpointsFromAddresses_eq, List.mem_append, List.mem_map,
      List.mem_filter, decide_eq_true_eq] at hep
    rcases hep with ⟨a, ⟨_, hm⟩, rfl⟩ | ⟨a, ⟨_, hm⟩, rfl⟩ <;>
    · rw [endpointFromAddress_Addresses] at hip
      rw [List.mem_singleton.mp hip]
      exact hm

/-- C8: for an input with a first subset, the converter returns a slice with as many ports
as the first subset, and the port at index `i` holds the port number, name and protocol of
the subset's port at index `i` and nothing else. -/
theorem ports_copied (isIPv6String : String → Bool)
    (allV6 : List corev1.EndpointAddress → Bool) (endpoints : corev1.Endpoints)
    (subset : corev1.EndpointSubset) (rest : List corev1.EndpointSubset)
    (h : endpoints.Subsets = subset :: rest) :
    ∃ slice, endpointSliceFromEndpoints isIPv6String allV6 endpoints = some slice ∧
      slice.Ports.length = subset.Ports.length ∧
      ∀ (i : Nat) (hi : i < subset.Ports.length),
        slice.Ports[i]? =
          some { Port := some subset.Ports[i].Port
                 Name := some subset.Ports[i].Name
                 Protocol := some subset.Ports[i].Protocol
                 AppProtocol := none } := by
  refine ⟨_, endpointSliceFromEndpoints_cons isIPv6String allV6 endpoints subset rest h, ?_, ?_⟩
  · simp
  · intro i hi
    simp [List.getElem?_map, List.getElem?_eq_getElem hi]

/-- C8 at an input with two ports: both are copied, in order. -/
theorem ports_copied_witness :
    twoPortInput.Subsets = twoPortSubset :: [] ∧
    (∃ slice, endpointSliceFromEndpoints colonClassifier (allAddressesIPv6 colonClassifier)
        twoPortInput = some slice ∧
      slice.Ports.length = twoPortSubset.Ports.length ∧
      ∀ (i : Nat) (hi : i < twoPortSubset.Ports.length),
        slice.Ports[i]? =
          some { Port := some twoPortSubset.Ports[i].Port
                 Name := some twoPortSubset.Ports[i].Name
                 Protocol := some twoPortSubset.Ports[i].Protocol
                 AppProtocol := none }) ∧
    (endpointSliceFromEndpoints colonClassifier (allAddressesIPv6 colonClassifier)
        twoPortInput).map (fun slice => slice.Ports)
      = some [{ Port := some 443, Name := some "https", Protocol := some "TCP" },
              { Port := some 53, Name := some "dns", Protocol := some "UDP" }] :=
  ⟨rfl,
   ports_copied colonClassifier (allAddressesIPv6 colonClassifier) twoPortInput twoPortSubset []
     rfl,
   by decide⟩

/-- C9: two inputs with the same name and the same first subset (or both without subsets)
are converted to the same slice; the subsets after the first, and every other field of the
input, do not influence the result. -/
theorem later_subsets_ignored (isIPv6String : String → Bool)
    (allV6 : List corev1.EndpointAddress → Bool) (e₁ e₂ : corev1.Endpoints)
    (hname : e₁.ObjectMeta.Name = e₂.ObjectMeta.Name)
    (hfirst : e₁.Subsets.head? = e₂.Subsets.head?) :
    ∃ slice, endpointSliceFromEndpoints isIPv6String allV6 e₁ = some slice ∧
      endpointSliceFromEndpoints isIPv6String allV6 e₂ = some slice := by
  cases h₁ : e₁.Subsets with
  | nil =>
    cases h₂ : e₂.Subsets with
    | nil =>
      refine ⟨_, endpointSliceFromEndpoints_nil isIPv6String allV6 e₁ h₁, ?_⟩
      rw [endpointSliceFromEndpoints_nil isIPv6String allV6 e₂ h₂, hname]
    | cons s₂ r₂ => simp [h₁, h₂] at hfirst
  | cons s₁ r₁ =>
    cases h₂ : e₂.Subsets with
    | nil => simp [h₁, h₂] at hfirst
    | cons s₂ r₂ =>
      have hs : s₁ = s₂ := by simpa [h₁, h₂] using hfirst
      subst hs
      refine ⟨_, endpointSliceFromEndpoints_cons isIPv6String allV6 e₁ s₁ r₁ h₁, ?_⟩
      rw [endpointSliceFromEndpoints_cons isIPv6String allV6 e₂ s₁ r₂ h₂, hname]

/-- C9 at two inputs that differ in their namespace and in the subsets after the first. -/
theorem later_subsets_ignored_witness :
    mixedInput.ObjectMeta.Name = mixedInputMoreSubsets.ObjectMeta.Name ∧
    mixedInput.Subsets.head? = mixedInputMoreSubsets.Subsets.head? ∧
    mixedInput ≠ mixedInputMoreSubsets ∧
    ∃ slice, endpointSliceFromEndpoints colonClassifier (allAddressesIPv6 colonClassifier)
        mixedInput = some slice ∧
      endpointSliceFromEndpoints colonClassifier (allAddressesIPv6 colonClassifier)
        mixedInputMoreSubsets = some slice :=
  ⟨rfl, rfl, by decide,
   later_subsets_ignored colonClassifier (allAddressesIPv6 colonClassifier) mixedInput
     mixedInputMoreSubsets rfl rfl⟩

/-- C10: for every input the converter returns a slice whose name is the input's name and
whose labels are exactly one entry, with key `discovery.LabelServiceName` and the input's
name as value. -/
theorem name_and_labels (isIPv6String : String → Bool)
    (allV6 : List corev1.EndpointAddress → Bool) (endpoints : corev1.Endpoints) :
    ∃ slice, endpointSliceFromEndpoints isIPv6String allV6 endpoints = some slice ∧
      slice.ObjectMeta.Name = endpoints.ObjectMeta.Name ∧
      slice.ObjectMeta.Labels = [(discovery.LabelServiceName, endpoints.ObjectMeta.Name)] ∧
      slice.ObjectMeta.Labels.length = 1 := by
  cases hs : endpoints.Subsets with
  | nil => exact ⟨_, endpointSliceFromEndpoints_nil isIPv6String allV6 endpoints hs, rfl, rfl, rfl⟩
  | cons subset rest =>
    exact ⟨_, endpointSliceFromEndpoints_cons isIPv6String allV6 endpoints subset rest hs,
      rfl, rfl, rfl⟩

/-- C11: for every source address and ready flag, `endpointFromAddress` returns a record
whose addresses are the singleton list of the source's IP literal, whose target reference
is the source's, and whose node name is present exactly when the source has one, and is
then the source's node name. -/
theorem endpointFromAddress_fields (address : corev1.EndpointAddress) (ready : Bool) :
    (endpointFromAddress address ready).Addresses = [address.IP] ∧
    (endpointFromAddress address ready).TargetRef = address.TargetRef ∧
    ((endpointFromAddress address ready).NodeName.isSome = true ↔
      address.NodeName.isSome = true) ∧
    (∀ nodeName, address.NodeName = some nodeName →
      (endpointFromAddress address ready).NodeName = some nodeName) := by
  have hnode : (endpointFromAddress address ready).NodeName = address.NodeName := by
    unfold endpointFromAddress
    split
    · rfl
    · rename_i hnone
      have : address.NodeName = none := by simpa using hnone
      simp [this]
  have htarget : (endpointFromAddress address ready).TargetRef = address.TargetRef := by
    unfold endpointFromAddress
    split <;> rfl
  refine ⟨endpointFromAddress_Addresses address ready, htarget, ?_, ?_⟩
  · rw [hnode]
  · intro nodeName hsome
    rw [hnode, hsome]

/-- C11 at an address with a node name and a target reference, and at one without. -/
theorem endpointFromAddress_fields_witness :
    ((endpointFromAddress referencedAddress false).Addresses = [referencedAddress.IP] ∧
      (endpointFromAddress referencedAddress false).TargetRef = referencedAddress.TargetRef ∧
      ((endpointFromAddress referencedAddress false).NodeName.isSome = true ↔
        referencedAddress.NodeName.isSome = true) ∧
      (∀ nodeName, referencedAddress.NodeName = some nodeName →
        (endpointFromAddress referencedAddress false).NodeName = some nodeName)) ∧
    endpointFromAddress referencedAddress false =
      { Addresses := ["10.0.0.1"], Conditions := { Ready := some false }
        TargetRef := some { Kind := "Pod", Namespace := "default", Name := "apiserver-0" }
        NodeName := some "node-a" } ∧
    (endpointFromAddress malformedAddress true).NodeName = none :=
  ⟨endpointFromAddress_fields referencedAddress false, by decide, by decide⟩

/-- C12: for an input whose first subset holds an address that is not classified IPv6 (a
malformed literal included), the converter (with `allAddressesIPv6` as the specification
describes it) returns address type IPv4, and the address is an output record carrying its
literal unchanged: the ready record of the address when it is a ready address, the
not-ready record when it is a not-ready address. -/
theorem non_ipv6_address_kept (isIPv6String : String → Bool) (endpoints : corev1.Endpoints)
    (subset : corev1.EndpointSubset) (rest : List corev1.EndpointSubset)
    (address : corev1.EndpointAddress)
    (h : endpoints.Subsets = subset :: rest)
    (hmem : address ∈ subset.Addresses ++ subset.NotReadyAddresses)
    (hclass : isIPv6String address.IP = false) :
    ∃ slice, endpointSliceFromEndpoints isIPv6String (allAddressesIPv6 isIPv6String) endpoints
        = some slice ∧
      slice.AddressType = discovery.AddressTypeIPv4 ∧
      (∃ ep ∈ slice.Endpoints, ep.Addresses = [address.IP]) ∧
      (address ∈ subset.Addresses → endpointFromAddress address true ∈ slice.Endpoints) ∧
      (address ∈ subset.NotReadyAddresses →
        endpointFromAddress address false ∈ slice.Endpoints) := by
  have hf : allAddressesIPv6 isIPv6String (subset.Addresses ++ subset.NotReadyAddresses)
      = false := by
    cases hv : allAddressesIPv6 isIPv6String (subset.Addresses ++ subset.NotReadyAddresses) with
    | false => rfl
    | true =>
      have := ((allAddressesIPv6_eq_true_iff isIPv6String _).mp hv).2 address hmem
      rw [hclass] at this
      cases this
  have h46 : ¬ discovery.AddressTypeIPv4 = discovery.AddressTypeIPv6 := addressType_constants_ne
  have hready : address ∈ subset.Addresses →
      endpointFromAddress address true ∈
        getEndpointsFromAddresses isIPv6String subset.Addresses discovery.AddressTypeIPv4 true ++
        getEndpointsFromAddresses isIPv6String subset.NotReadyAddresses
          discovery.AddressTypeIPv4 false := by
    intro ha
    apply List.mem_append_left
    rw [getEndpointsFromAddresses_eq]
    exact List.mem_map.mpr ⟨address, List.mem_filter.mpr ⟨ha, by simp [hclass, h46]⟩, rfl⟩
  have hnotReady : address ∈ subset.NotReadyAddresses →
      endpointFromAddress address false ∈
        getEndpointsFromAddresses isIPv6String subset.Addresses discovery.AddressTypeIPv4 true ++
        getEndpointsFromAddresses isIPv6String subset.NotReadyAddresses
          discovery.AddressTypeIPv4 false := by
    intro ha
    apply List.mem_append_right
    rw [getEndpointsFromAddresses_eq]
    exact List.mem_map.mpr ⟨address, List.mem_filter.mpr ⟨ha, by simp [hclass, h46]⟩, rfl⟩
  refine ⟨_, endpointSliceFromEndpoints_cons isIPv6String _ endpoints subset rest h, ?_, ?_, ?_, ?_⟩
  · simp [hf]
  · simp only [hf]
    rcases List.mem_append.mp hmem with ha | ha
    · exact ⟨_, hready ha, endpointFromAddress_Addresses address true⟩
    · exact ⟨_, hnotReady ha, endpointFromAddress_Addresses address false⟩
  · simpa only [hf] using hready
  · simpa only [hf] using hnotReady

/-- C12 at a malformed literal: ready `[fe80::1]` and not-ready `[not-an-ip]` give address
type IPv4 and the single not-ready record `not-an-ip`. -/
theorem non_ipv6_address_kept_witness :
    malformedInput.Subsets = malformedSubset :: [] ∧
    malformedAddress ∈ malformedSubset.Addresses ++ malformedSubset.NotReadyAddresses ∧
    colonClassifier malformedAddress.IP = false ∧
    (∃ slice, endpointSliceFromEndpoints colonClassifier (allAddressesIPv6 colonClassifier)
        malformedInput = some slice ∧
      slice.AddressType = discovery.AddressTypeIPv4 ∧
      (∃ ep ∈ slice.Endpoints, ep.Addresses = [malformedAddress.IP]) ∧
      (malformedAddress ∈ malformedSubset.Addresses →
        endpointFromAddress malformedAddress true ∈ slice.Endpoints) ∧
      (malformedAddress ∈ malformedSubset.NotReadyAddresses →
        endpointFromAddress malformedAddress false ∈ slice.Endpoints)) ∧
    (endpointSliceFromEndpoints colonClassifier (allAddressesIPv6 colonClassifier)
        malformedInput).map (fun slice => (slice.AddressType, slice.Endpoints))
      = some ("IPv4", [{ Addresses := ["not-an-ip"], Conditions := { Ready := some false } }]) :=
  ⟨rfl, by decide, by decide,
   non_ipv6_address_kept colonClassifier malformedInput malformedSubset [] malformedAddress rfl
     (by decide) (by decide),
   by decide⟩

/-- C13: the converter is total. For every input, every classifier and every result of
`allAddressesIPv6` it returns a slice; the lookup of subset 0 succeeds whenever the guard
`len(Subsets) > 0` holds, and the port loop over the indices of a port list succeeds on
every index and returns a list. -/
theorem converter_total (isIPv6String : String → Bool)
    (allV6 : List corev1.EndpointAddress → Bool) (endpoints : corev1.Endpoints) :
    (∃ slice, endpointSliceFromEndpoints isIPv6String allV6 endpoints = some slice) ∧
    (endpoints.Subsets.length > 0 → ∃ subset, endpoints.Subsets[0]? = some subset) ∧
    (∀ (ports : List corev1.EndpointPort) (acc : List discovery.EndpointPort),
      (∀ i ∈ List.range ports.length, ∃ p, ports[i]? = some p) ∧
      ∃ out, appendPorts ports (List.range ports.length) acc = some out) := by
  refine ⟨?_, ?_, ?_⟩
  · cases hs : endpoints.Subsets with
    | nil => exact ⟨_, endpointSliceFromEndpoints_nil isIPv6String allV6 endpoints hs⟩
    | cons subset rest =>
      exact ⟨_, endpointSliceFromEndpoints_cons isIPv6String allV6 endpoints subset rest hs⟩
  · intro hlen
    cases hs : endpoints.Subsets with
    | nil => simp [hs] at hlen
    | cons subset rest => exact ⟨subset, List.getElem?_cons_zero⟩
  · intro ports acc
    refine ⟨?_, _, appendPorts_range ports acc⟩
    intro i hi
    have hlt : i < ports.length := List.mem_range.mp hi
    exact ⟨ports[i], List.getElem?_eq_getElem hlt⟩

/-- The closure of `createOrPatch` returns the target with four fields replaced by those of
the converted slice. -/
theorem mutateFn_eq (isIPv6String : String → Bool)
    (allV6 : List corev1.EndpointAddress → Bool) (vEndpoints : corev1.Endpoints)
    (target newSlice : discovery.EndpointSlice)
    (h : endpointSliceFromEndpoints isIPv6String allV6 vEndpoints = some newSlice) :
    createOrPatch.mutateFn isIPv6String allV6 vEndpoints target
      = some { ObjectMeta := { Name := target.ObjectMeta.Name
                               Namespace := target.ObjectMeta.Namespace
                               Labels := newSlice.ObjectMeta.Labels }
               AddressType := newSlice.AddressType
               Endpoints := newSlice.Endpoints
               Ports := newSlice.Ports } := by
  simp [createOrPatch.mutateFn, h]

theorem converter_returns (isIPv6String : String → Bool)
    (allV6 : List corev1.EndpointAddress → Bool) (endpoints : corev1.Endpoints) :
    ∃ slice, endpointSliceFromEndpoints isIPv6String allV6 endpoints = some slice := by
  cases hs : endpoints.Subsets with
  | nil => exact ⟨_, endpointSliceFromEndpoints_nil isIPv6String allV6 endpoints hs⟩
  | cons subset rest =>
    exact ⟨_, endpointSliceFromEndpoints_cons isIPv6String allV6 endpoints subset rest hs⟩

/-- C14: for every target and every input, the closure that `createOrPatch` passes to
`CreateOrPatch` returns the target with exactly four fields overwritten, namely labels,
address type, ports and endpoints, by those of the converted slice; name and namespace are
the target's own. Applied to the target `createOrPatch` builds, the result keeps namespace
`default` and name `kubernetes`, whatever the name of the converted slice. -/
theorem mutateFn_overwrites_four_fields (isIPv6String : String → Bool)
    (allV6 : List corev1.EndpointAddress → Bool) (vEndpoints : corev1.Endpoints)
    (target : discovery.EndpointSlice) :
    ∃ newSlice result,
      endpointSliceFromEndpoints isIPv6String allV6 vEndpoints = some newSlice ∧
      createOrPatch.mutateFn isIPv6String allV6 vEndpoints target = some result ∧
      result.ObjectMeta.Labels = newSlice.ObjectMeta.Labels ∧
      result.AddressType = newSlice.AddressType ∧
      result.Ports = newSlice.Ports ∧
      result.Endpoints = newSlice.Endpoints ∧
      result.ObjectMeta.Name = target.ObjectMeta.Name ∧
      result.ObjectMeta.Namespace = target.ObjectMeta.Namespace ∧
      result =
        { target with
          ObjectMeta := { target.ObjectMeta with Labels := newSlice.ObjectMeta.Labels }
          AddressType := newSlice.AddressType
          Ports := newSlice.Ports
          Endpoints := newSlice.Endpoints } ∧
      ∃ fresh, createOrPatch.mutateFn isIPv6String allV6 vEndpoints createOrPatch.vSlices
          = some fresh ∧
        fresh.ObjectMeta.Namespace = "default" ∧ fresh.ObjectMeta.Name = "kubernetes" := by
  obtain ⟨newSlice, hnew⟩ := converter_returns isIPv6String allV6 vEndpoints
  exact ⟨newSlice, _, hnew, mutateFn_eq isIPv6String allV6 vEndpoints target newSlice hnew,
    rfl, rfl, rfl, rfl, rfl, rfl, rfl,
    _, mutateFn_eq isIPv6String allV6 vEndpoints createOrPatch.vSlices newSlice hnew, rfl, rfl⟩

/-- C14 at an input named `other-service` and a stored target with stale fields: the four
fields are replaced, and the target is still `default/kubernetes` although the converted
slice is named `other-service`. -/
theorem mutateFn_overwrites_four_fields_witness :
    (endpointSliceFromEndpoints colonClassifier (allAddressesIPv6 colonClassifier)
        renamedInput).map (fun slice => slice.ObjectMeta.Name) = some "other-service" ∧
    createOrPatch.mutateFn colonClassifier (allAddressesIPv6 colonClassifier) renamedInput
        staleTarget
      = some { ObjectMeta := { Namespace := "default", Name := "kubernetes"
                               Labels := [("kubernetes.io/service-name", "other-service")] }
               AddressType := "IPv4"
               Endpoints := [{ Addresses := ["10.0.0.1"], Conditions := { Ready := some true } }]
               Ports := [{ Port := some 443, Name := some "https", Protocol := some "TCP" }] } ∧
    ∃ newSlice result,
      endpointSliceFromEndpoints colonClassifier (allAddressesIPv6 colonClassifier) renamedInput
        = some newSlice ∧
      createOrPatch.mutateFn colonClassifier (allAddressesIPv6 colonClassifier) renamedInput
        staleTarget = some result ∧
      result.ObjectMeta.Labels = newSlice.ObjectMeta.Labels ∧
      result.AddressType = newSlice.AddressType ∧
      result.Ports = newSlice.Ports ∧
      result.Endpoints = newSlice.Endpoints ∧
      result.ObjectMeta.Name = staleTarget.ObjectMeta.Name ∧
      result.ObjectMeta.Namespace = staleTarget.ObjectMeta.Namespace ∧
      result =
        { staleTarget with
          ObjectMeta := { staleTarget.ObjectMeta with Labels := newSlice.ObjectMeta.Labels }
          AddressType := newSlice.AddressType
          Ports := newSlice.Ports
          Endpoints := newSlice.Endpoints } ∧
      ∃ fresh, createOrPatch.mutateFn colonClassifier (allAddressesIPv6 colonClassifier)
          renamedInput createOrPatch.vSlices = some fresh ∧
        fresh.ObjectMeta.Namespace = "default" ∧ fresh.ObjectMeta.Name = "kubernetes" :=
  ⟨by decide, by decide,
   mutateFn_overwrites_four_fields colonClassifier (allAddressesIPv6 colonClassifier)
     renamedInput staleTarget⟩

/-- C15: for every target and every input, the closure of `createOrPatch` returns a state
on which a second application with the same input changes nothing; and the four
overwritten fields of the result are the same whatever target the closure starts from. -/
theorem mutateFn_idempotent (isIPv6String : String → Bool)
    (allV6 : List corev1.EndpointAddress → Bool) (vEndpoints : corev1.Endpoints)
    (target : discovery.EndpointSlice) :
    ∃ once, createOrPatch.mutateFn isIPv6String allV6 vEndpoints target = some once ∧
      createOrPatch.mutateFn isIPv6String allV6 vEndpoints once = some once ∧
      ∀ other : discovery.EndpointSlice,
        ∃ result, createOrPatch.mutateFn isIPv6String allV6 vEndpoints other = some result ∧
          result.ObjectMeta.Labels = once.ObjectMeta.Labels ∧
          result.AddressType = once.AddressType ∧
          result.Ports = once.Ports ∧
          result.Endpoints = once.Endpoints := by
  obtain ⟨newSlice, hnew⟩ := converter_returns isIPv6String allV6 vEndpoints
  refine ⟨_, mutateFn_eq isIPv6String allV6 vEndpoints target newSlice hnew, ?_, ?_⟩
  · rw [mutateFn_eq isIPv6String allV6 vEndpoints _ newSlice hnew]
  · intro other
    exact ⟨_, mutateFn_eq isIPv6String allV6 vEndpoints other newSlice hnew, rfl, rfl, rfl, rfl⟩

/-- C15 at a stored target with stale fields: the second application returns the state of
the first, which differs from the stale target. -/
theorem mutateFn_idempotent_witness :
    createOrPatch.mutateFn colonClassifier (allAddressesIPv6 colonClassifier) renamedInput
        staleTarget ≠ some staleTarget ∧
    ∃ once, createOrPatch.mutateFn colonClassifier (allAddressesIPv6 colonClassifier)
        renamedInput staleTarget = some once ∧
      createOrPatch.mutateFn colonClassifier (allAddressesIPv6 colonClassifier) renamedInput once
        = some once ∧
      ∀ other : discovery.EndpointSlice,
        ∃ result, createOrPatch.mutateFn colonClassifier (allAddressesIPv6 colonClassifier)
            renamedInput other = some result ∧
          result.ObjectMeta.Labels = once.ObjectMeta.Labels ∧
          result.AddressType = once.AddressType ∧
          result.Ports = once.Ports ∧
          result.Endpoints = once.Endpoints :=
  ⟨by decide,
   mutateFn_idempotent colonClassifier (allAddressesIPv6 colonClassifier) renamedInput
     staleTarget⟩

/-- C16 as stated fails on empty address lists: for the input whose first subset has no
address the all-of reduction over the concatenated sequence is true, yet the converter
returns address type IPv4. -/
theorem allOfReduction_counterexample :
    noAddressesInput.Subsets = [{ Ports := [httpsPort] }] ∧
    allOfReduction colonClassifier [] [] = true ∧
    (endpointSliceFromEndpoints colonClassifier (allAddressesIPv6 colonClassifier)
        noAddressesInput).map (fun slice => slice.AddressType) = some "IPv4" ∧
    ¬ ∃ slice, endpointSliceFromEndpoints colonClassifier (allAddressesIPv6 colonClassifier)
        noAddressesInput = some slice ∧
      (slice.AddressType = discovery.AddressTypeIPv6 ↔
        allOfReduction colonClassifier [] [] = true) := by
  refine ⟨rfl, by decide, by decide, ?_⟩
  rintro ⟨slice, h, hiff⟩
  have h4 : (endpointSliceFromEndpoints colonClassifier (allAddressesIPv6 colonClassifier)
      noAddressesInput).map (fun slice => slice.AddressType) = some "IPv4" := by decide
  rw [h] at h4
  simp only [Option.map_some'] at h4
  have h6 : slice.AddressType = discovery.AddressTypeIPv6 := hiff.mpr (by decide)
  rw [h6] at h4
  exact absurd h4 (by decide)

/-- C16, amended: for an input with a first subset, the converter (with `allAddressesIPv6`
as the specification describes it) returns address type IPv6 exactly when the concatenation
of the ready and not-ready addresses is non-empty and the all-of reduction over it is
true, and address type IPv4 in every other case. So on a non-empty concatenation the
decision is the reduction itself (IPv6 when it is true, IPv4 when it is false), and for two
empty address lists the address type is IPv4. -/
theorem addressType_refines_allOfReduction (isIPv6String : String → Bool)
    (endpoints : corev1.Endpoints) (subset : corev1.EndpointSubset)
    (rest : List corev1.EndpointSubset) (h : endpoints.Subsets = subset :: rest) :
    ∃ slice, endpointSliceFromEndpoints isIPv6String (allAddressesIPv6 isIPv6String) endpoints
        = some slice ∧
      (slice.AddressType = discovery.AddressTypeIPv6 ↔
        subset.Addresses ++ subset.NotReadyAddresses ≠ [] ∧
          allOfReduction isIPv6String subset.Addresses subset.NotReadyAddresses = true) ∧
      (subset.Addresses ++ subset.NotReadyAddresses ≠ [] →
        (slice.AddressType = discovery.AddressTypeIPv6 ↔
          allOfReduction isIPv6String subset.Addresses subset.NotReadyAddresses = true)) ∧
      (¬ (subset.Addresses ++ subset.NotReadyAddresses ≠ [] ∧
          allOfReduction isIPv6String subset.Addresses subset.NotReadyAddresses = true) →
        slice.AddressType = discovery.AddressTypeIPv4) ∧
      (subset.Addresses ++ subset.NotReadyAddresses ≠ [] →
        allOfReduction isIPv6String subset.Addresses subset.NotReadyAddresses = false →
        slice.AddressType = discovery.AddressTypeIPv4) ∧
      (subset.Addresses = [] → subset.NotReadyAddresses = [] →
        slice.AddressType = discovery.AddressTypeIPv4) := by
  have hiff : ∀ t : discovery.AddressType,
      t = (if allAddressesIPv6 isIPv6String (subset.Addresses ++ subset.NotReadyAddresses)
            then discovery.AddressTypeIPv6 else discovery.AddressTypeIPv4) →
      (t = discovery.AddressTypeIPv6 ↔
        subset.Addresses ++ subset.NotReadyAddresses ≠ [] ∧
          allOfReduction isIPv6String subset.Addresses subset.NotReadyAddresses = true) := by
    intro t ht
    unfold allOfReduction
    rw [List.all_eq_true, ← allAddressesIPv6_eq_true_iff, ht]
    cases allAddressesIPv6 isIPv6String (subset.Addresses ++ subset.NotReadyAddresses)
    · simpa using addressType_constants_ne
    · simp
  have hother : ∀ t : discovery.AddressType,
      t = (if allAddressesIPv6 isIPv6String (subset.Addresses ++ subset.NotReadyAddresses)
            then discovery.AddressTypeIPv6 else discovery.AddressTypeIPv4) →
      ¬ (subset.Addresses ++ subset.NotReadyAddresses ≠ [] ∧
          allOfReduction isIPv6String subset.Addresses subset.NotReadyAddresses = true) →
      t = discovery.AddressTypeIPv4 := by
    intro t ht hnot
    cases hv : allAddressesIPv6 isIPv6String (subset.Addresses ++ subset.NotReadyAddresses) with
    | false =>
      rw [ht, hv]
      rfl
    | true =>
      exfalso
      apply hnot
      unfold allOfReduction
      rw [List.all_eq_true]
      exact (allAddressesIPv6_eq_true_iff isIPv6String _).mp hv
  refine ⟨_, endpointSliceFromEndpoints_cons isIPv6String _ endpoints subset rest h,
    hiff _ rfl, ?_, hother _ rfl, ?_, ?_⟩
  · intro hne
    rw [hiff _ rfl]
    exact ⟨fun hboth => hboth.2, fun hall => ⟨hne, hall⟩⟩
  · intro _ hfalse
    apply hother _ rfl
    intro hboth
    rw [hboth.2] at hfalse
    cases hfalse
  · intro hready hnotReady
    apply hother _ rfl
    intro hboth
    apply hboth.1
    rw [hready, hnotReady]
    rfl

/-- C16 amended, at the input with ready `[10.0.0.1, fe80::1]`: the concatenation is not
empty, the reduction is false and the address type is IPv4. Evaluated next to it: ready
`[fe80::1]` gives IPv6, and a first subset without addresses gives IPv4. -/
theorem addressType_refines_allOfReduction_witness :
    mixedInput.Subsets = mixedSubset :: [] ∧
    allOfReduction colonClassifier mixedSubset.Addresses mixedSubset.NotReadyAddresses = false ∧
    (∃ slice, endpointSliceFromEndpoints colonClassifier (allAddressesIPv6 colonClassifier)
        mixedInput = some slice ∧
      (slice.AddressType = discovery.AddressTypeIPv6 ↔
        mixedSubset.Addresses ++ mixedSubset.NotReadyAddresses ≠ [] ∧
          allOfReduction colonClassifier mixedSubset.Addresses mixedSubset.NotReadyAddresses
            = true) ∧
      (mixedSubset.Addresses ++ mixedSubset.NotReadyAddresses ≠ [] →
        (slice.AddressType = discovery.AddressTypeIPv6 ↔
          allOfReduction colonClassifier mixedSubset.Addresses mixedSubset.NotReadyAddresses
            = true)) ∧
      (¬ (mixedSubset.Addresses ++ mixedSubset.NotReadyAddresses ≠ [] ∧
          allOfReduction colonClassifier mixedSubset.Addresses mixedSubset.NotReadyAddresses
            = true) →
        slice.AddressType = discovery.AddressTypeIPv4) ∧
      (mixedSubset.Addresses ++ mixedSubset.NotReadyAddresses ≠ [] →
        allOfReduction colonClassifier mixedSubset.Addresses mixedSubset.NotReadyAddresses
          = false →
        slice.AddressType = discovery.AddressTypeIPv4) ∧
      (mixedSubset.Addresses = [] → mixedSubset.NotReadyAddresses = [] →
        slice.AddressType = discovery.AddressTypeIPv4)) ∧
    (endpointSliceFromEndpoints colonClassifier (allAddressesIPv6 colonClassifier)
        mixedInput).map (fun slice => slice.AddressType) = some "IPv4" ∧
    (allOfReduction colonClassifier ipv6Subset.Addresses ipv6Subset.NotReadyAddresses = true ∧
      (endpointSliceFromEndpoints colonClassifier (allAddressesIPv6 colonClassifier)
        ipv6Input).map (fun slice => slice.AddressType) = some "IPv6") ∧
    (endpointSliceFromEndpoints colonClassifier (allAddressesIPv6 colonClassifier)
        noAddressesInput).map (fun slice => slice.AddressType) = some "IPv4" :=
  ⟨rfl, by decide,
   addressType_refines_allOfReduction colonClassifier mixedInput mixedSubset [] rfl,
   by decide, ⟨by decide, by decide⟩, by decide⟩

/-- The number of records built from both address lists is the number of addresses of
their concatenation that pass the family filter. -/
theorem endpoints_length_eq (isIPv6String : String → Bool)
    (readyAddresses notReadyAddresses : List corev1.EndpointAddress)
    (addressType : discovery.AddressType) :
    (getEndpointsFromAddresses isIPv6String readyAddresses addressType true ++
      getEndpointsFromAddresses isIPv6String notReadyAddresses addressType false).length
      = ((readyAddresses ++ notReadyAddresses).filter (fun a =>
          decide (isIPv6String a.IP = true ↔ addressType = discovery.AddressTypeIPv6))).length := by
  rw [getEndpointsFromAddresses_eq, getEndpointsFromAddresses_eq, List.filter_append]
  simp only [List.length_append, List.length_map]

/-- C17: for an input with a first subset, the converter (with `allAddressesIPv6` as the
specification describes it) returns at most as many records as the subset has ready and
not-ready addresses; it returns exactly that many if and only if the addresses are all
classified IPv6 or all not classified IPv6; and when the families are mixed the number of
records is the number of addresses not classified IPv6. -/
theorem endpoint_count (isIPv6String : String → Bool) (endpoints : corev1.Endpoints)
    (subset : corev1.EndpointSubset) (rest : List corev1.EndpointSubset)
    (h : endpoints.Subsets = subset :: rest) :
    ∃ slice, endpointSliceFromEndpoints isIPv6String (allAddressesIPv6 isIPv6String) endpoints
        = some slice ∧
      slice.Endpoints.length ≤ subset.Addresses.length + subset.NotReadyAddresses.length ∧
      (slice.Endpoints.length = subset.Addresses.length + subset.NotReadyAddresses.length ↔
        (∀ a ∈ subset.Addresses ++ subset.NotReadyAddresses, isIPv6String a.IP = true) ∨
        (∀ a ∈ subset.Addresses ++ subset.NotReadyAddresses, isIPv6String a.IP = false)) ∧
      (¬ ((∀ a ∈ subset.Addresses ++ subset.NotReadyAddresses, isIPv6String a.IP = true) ∨
          (∀ a ∈ subset.Addresses ++ subset.NotReadyAddresses, isIPv6String a.IP = false)) →
        slice.Endpoints.length =
          ((subset.Addresses ++ subset.NotReadyAddresses).filter
            (fun a => !isIPv6String a.IP)).length) := by
  refine ⟨_, endpointSliceFromEndpoints_cons isIPv6String _ endpoints subset rest h, ?_⟩
  simp only [endpoints_length_eq]
  rw [← List.length_append]
  generalize subset.Addresses ++ subset.NotReadyAddresses = union
  cases hv : allAddressesIPv6 isIPv6String union with
  | true =>
    obtain ⟨_, hall⟩ := (allAddressesIPv6_eq_true_iff isIPv6String union).mp hv
    have hfilter : union.filter (fun a =>
        decide (isIPv6String a.IP = true ↔
          discovery.AddressTypeIPv6 = discovery.AddressTypeIPv6)) = union := by
      rw [List.filter_eq_self]
      intro a ha
      simp [hall a ha]
    rw [if_pos rfl, hfilter]
    exact ⟨Nat.le_refl _, ⟨fun _ => Or.inl hall, fun _ => rfl⟩,
      fun hmixed => absurd (Or.inl hall) hmixed⟩
  | false =>
    have h46 : ¬ discovery.AddressTypeIPv4 = discovery.AddressTypeIPv6 :=
      addressType_constants_ne
    have hpred : (fun a : corev1.EndpointAddress =>
        decide (isIPv6String a.IP = true ↔
          discovery.AddressTypeIPv4 = discovery.AddressTypeIPv6))
        = (fun a => !isIPv6String a.IP) := by
      funext a
      cases isIPv6String a.IP <;> simp [h46]
    rw [if_neg Bool.false_ne_true, hpred]
    refine ⟨List.length_filter_le _ _, ?_, fun _ => rfl⟩
    rw [List.filter_length_eq_length]
    constructor
    · intro hnone
      right
      intro a ha
      simpa using hnone a ha
    · rintro (hall | hnone)
      · have hempty : union = [] := by
          by_contra hne
          have := (allAddressesIPv6_eq_true_iff isIPv6String union).mpr ⟨hne, hall⟩
          rw [hv] at this
          cases this
        intro a ha
        rw [hempty] at ha
        cases ha
      · intro a ha
        simp [hnone a ha]

/-- C17 at ready `[10.0.0.1, fe80::1]`: two addresses of mixed families, one record. -/
theorem endpoint_count_witness :
    mixedInput.Subsets = mixedSubset :: [] ∧
    (∃ slice, endpointSliceFromEndpoints colonClassifier (allAddressesIPv6 colonClassifier)
        mixedInput = some slice ∧
      slice.Endpoints.length ≤ mixedSubset.Addresses.length + mixedSubset.NotReadyAddresses.length ∧
      (slice.Endpoints.length =
          mixedSubset.Addresses.length + mixedSubset.NotReadyAddresses.length ↔
        (∀ a ∈ mixedSubset.Addresses ++ mixedSubset.NotReadyAddresses,
          colonClassifier a.IP = true) ∨
        (∀ a ∈ mixedSubset.Addresses ++ mixedSubset.NotReadyAddresses,
          colonClassifier a.IP = false)) ∧
      (¬ ((∀ a ∈ mixedSubset.Addresses ++ mixedSubset.NotReadyAddresses,
            colonClassifier a.IP = true) ∨
          (∀ a ∈ mixedSubset.Addresses ++ mixedSubset.NotReadyAddresses,
            colonClassifier a.IP = false)) →
        slice.Endpoints.length =
          ((mixedSubset.Addresses ++ mixedSubset.NotReadyAddresses).filter
            (fun a => !colonClassifier a.IP)).length)) ∧
    (endpointSliceFromEndpoints colonClassifier (allAddressesIPv6 colonClassifier)
        mixedInput).map (fun slice => slice.Endpoints.length) = some 1 ∧
    mixedSubset.Addresses.length + mixedSubset.NotReadyAddresses.length = 2 :=
  ⟨rfl, endpoint_count colonClassifier mixedInput mixedSubset [] rfl, by decide, by decide⟩

/-- C18: for an input with a first subset, every port of the returned slice has its port
number, its name and its protocol present, and the port at index `i` holds the name and
the protocol of the subset's port at index `i` as present values, the empty string
included: an empty source name is the present name `""`. -/
theorem ports_fields_present (isIPv6String : String → Bool)
    (allV6 : List corev1.EndpointAddress → Bool) (endpoints : corev1.Endpoints)
    (subset : corev1.EndpointSubset) (rest : List corev1.EndpointSubset)
    (h : endpoints.Subsets = subset :: rest) :
    ∃ slice, endpointSliceFromEndpoints isIPv6String allV6 endpoints = some slice ∧
      (∀ port ∈ slice.Ports,
        port.Port.isSome = true ∧ port.Name.isSome = true ∧ port.Protocol.isSome = true) ∧
      (∀ (i : Nat) (source : corev1.EndpointPort), subset.Ports[i]? = some source →
        ∃ port, slice.Ports[i]? = some port ∧
          port.Name = some source.Name ∧ port.Protocol = some source.Protocol ∧
          (source.Name = "" → port.Name = some "") ∧
          (source.Protocol = "" → port.Protocol = some "")) := by
  refine ⟨_, endpointSliceFromEndpoints_cons isIPv6String allV6 endpoints subset rest h, ?_, ?_⟩
  · intro port hport
    obtain ⟨source, _, rfl⟩ := List.mem_map.mp hport
    exact ⟨rfl, rfl, rfl⟩
  · intro i source hsource
    refine ⟨{ Port := some source.Port, Name := some source.Name,
              Protocol := some source.Protocol }, ?_, rfl, rfl, ?_, ?_⟩
    · simp [List.getElem?_map, hsource]
    · intro hname
      simp [hname]
    · intro hprotocol
      simp [hprotocol]

/-- C18 at a port with an empty name and an empty protocol: both are present and empty. -/
theorem ports_fields_present_witness :
    unnamedPortInput.Subsets = unnamedPortSubset :: [] ∧
    (∃ slice, endpointSliceFromEndpoints colonClassifier (allAddressesIPv6 colonClassifier)
        unnamedPortInput = some slice ∧
      (∀ port ∈ slice.Ports,
        port.Port.isSome = true ∧ port.Name.isSome = true ∧ port.Protocol.isSome = true) ∧
      (∀ (i : Nat) (source : corev1.EndpointPort), unnamedPortSubset.Ports[i]? = some source →
        ∃ port, slice.Ports[i]? = some port ∧
          port.Name = some source.Name ∧ port.Protocol = some source.Protocol ∧
          (source.Name = "" → port.Name = some "") ∧
          (source.Protocol = "" → port.Protocol = some ""))) ∧
    (endpointSliceFromEndpoints colonClassifier (allAddressesIPv6 colonClassifier)
        unnamedPortInput).map (fun slice => slice.Ports)
      = some [{ Port := some 8080, Name := some "", Protocol := some "" }] :=
  ⟨rfl,
   ports_fields_present colonClassifier (allAddressesIPv6 colonClassifier) unnamedPortInput
     unnamedPortSubset [] rfl,
   by decide⟩

end K8sDefaultEndpoint
